import Mathlib

/-
  Verification of the MSS helpers module: the pure-Python PNG writer
  (MSS.to_png) and the capture orchestration generator (MSS.save).

  The embedding models bytes as natural numbers below 256 in lists, Python
  integers as Int (or Nat where the source guarantees nonnegativity), and the
  external zlib imports (compress, crc32) as function parameters, since they
  are library collaborators, not code of this repository.  File effects are
  modelled as explicit event traces.
-/

namespace MSS

/-- pack with format >I : the 4-byte big-endian encoding of an unsigned
32-bit value.  The struct module raises for values outside the 32-bit range;
every value the code packs is either masked with 0xffffffff or small, so the
truncating form below agrees with the source on all values it actually packs. -/
def be32 (n : ℕ) : List ℕ :=
  [n / 16777216 % 256, n / 65536 % 256, n / 256 % 256, n % 256]

/-- A conformant big-endian decoder for a single 4-byte field. -/
def de32 : List ℕ → ℕ
  | [a, b, c, d] => ((a * 256 + b) * 256 + c) * 256 + d
  | _ => 0

/-- magic = pack with format >8B applied to 137 80 78 71 13 10 26 10. -/
def pngMagic : List ℕ := [137, 80, 78, 71, 13, 10, 26, 10]

/-- The ASCII bytes of the marker IHDR. -/
def ihdrTag : List ℕ := [73, 72, 68, 82]

/-- The ASCII bytes of the marker IDAT. -/
def idatTag : List ℕ := [73, 68, 65, 84]

/-- The ASCII bytes of the marker IEND. -/
def iendTag : List ℕ := [73, 69, 78, 68]

/-- line = (width * 3 + 3) & -4.  Bitwise AND of a nonnegative value with -4
clears the two low bits, i.e. rounds down to a multiple of 4. -/
def line (width : ℕ) : ℕ := (width * 3 + 3) / 4 * 4

/-- padding = 0 if line % 8 == 0 else (line % 8) // 2. -/
def padding (width : ℕ) : ℕ :=
  if line width % 8 = 0 then 0 else line width % 8 / 2

/-- The slice data[y * line : y * line + line - padding], with the Python
slice [a : b] rendered as take b followed by drop a. -/
def rowSlice (data : List ℕ) (width y : ℕ) : List ℕ :=
  (data.take (y * line width + line width - padding width)).drop (y * line width)

/-- scanlines : the join over y in range(height) of png_filter followed by
the row slice, where png_filter = pack with format >B applied to 0. -/
def scanlines (data : List ℕ) (width height : ℕ) : List ℕ :=
  (List.range height).flatMap fun y => 0 :: rowSlice data width y

/-- ihdr[2] = pack with format >2I5B applied to width, height, 8, 2, 0, 0, 0. -/
def ihdrPayload (width height : ℕ) : List ℕ :=
  be32 width ++ be32 height ++ [8, 2, 0, 0, 0]

/-- One chunk as the code joins it: size = pack of the payload length, then
the marker, the payload, and pack of crc32 (marker + payload) & 0xffffffff.
The crc32 function is the zlib import, kept as a parameter; the mask with
0xffffffff is % 4294967296 on naturals. -/
def chunkBytes (crc32 : List ℕ → ℕ) (tag payload : List ℕ) : List ℕ :=
  be32 payload.length ++ tag ++ payload ++
    be32 (crc32 (tag ++ payload) % 4294967296)

/-- The full byte stream to_png writes: magic, the IHDR chunk, the IDAT chunk
holding compress (scanlines), and the IEND chunk with empty payload.  The
compress and crc32 functions are the zlib imports, kept as parameters. -/
def to_png_bytes (compress : List ℕ → List ℕ) (crc32 : List ℕ → ℕ)
    (data : List ℕ) (width height : ℕ) : List ℕ :=
  pngMagic ++ chunkBytes crc32 ihdrTag (ihdrPayload width height)
    ++ chunkBytes crc32 idatTag (compress (scanlines data width height))
    ++ chunkBytes crc32 iendTag []

/-- A file-system effect performed by the code. -/
inductive FSEvent
  | openFile (path : String)
  | writeBytes (path : String) (bytes : List ℕ)
deriving DecidableEq

/-- The outcomes of to_png: an I/O failure propagated from open or write, or
the ScreenshotError raised by the final statement of the function. -/
inductive PngError
  | ioFailure
  | screenshot (msg : String)
deriving DecidableEq

/-- The message of the final raise: Error writing data to "output". -/
def errMsg (output : String) : String :=
  "Error writing data to \"" ++ output ++ "\"."

/-- Run the sequence of fileh.write calls inside the with block.  writeOk
says whether the k-th write call succeeds; a failed write raises, discarding
the rest.  Returns the successful write events, or none if a write raised. -/
def writeSeq (path : String) (writeOk : ℕ → Bool) :
    ℕ → List (List ℕ) → Option (List FSEvent)
  | _, [] => some []
  | k, bs :: rest =>
    if writeOk k then
      (writeSeq path writeOk (k + 1) rest).map
        fun evs => FSEvent.writeBytes path bs :: evs
    else
      none

/-- The four byte blocks the with block writes: magic, IHDR, IDAT, IEND. -/
def pngPieces (compress : List ℕ → List ℕ) (crc32 : List ℕ → ℕ)
    (data : List ℕ) (width height : ℕ) : List (List ℕ) :=
  [pngMagic,
   chunkBytes crc32 ihdrTag (ihdrPayload width height),
   chunkBytes crc32 idatTag (compress (scanlines data width height)),
   chunkBytes crc32 iendTag []]

/-- The body of the with block: four fileh.write calls, then an explicit
return.  The second component some () means the body executed its return
statement; none there would mean the body fell off the end of the block
without returning (which the trailing raise in to_png would then handle);
a none first component means a write raised. -/
def withBody (compress : List ℕ → List ℕ) (crc32 : List ℕ → ℕ)
    (data : List ℕ) (width height : ℕ) (output : String)
    (writeOk : ℕ → Bool) : Option (List FSEvent) × Option Unit :=
  match writeSeq output writeOk 0 (pngPieces compress crc32 data width height) with
  | some evs => (some evs, some ())
  | none => (none, none)

/-- to_png with its file effects: open the output for writing (openOk says
whether open succeeds), run the with block, and, should control ever leave
the with block without the body having returned, raise
ScreenshotError (errMsg output) as the final statement does. -/
def to_png_exec (compress : List ℕ → List ℕ) (crc32 : List ℕ → ℕ)
    (data : List ℕ) (width height : ℕ) (output : String)
    (openOk : Bool) (writeOk : ℕ → Bool) :
    Except PngError Unit × List FSEvent :=
  if openOk then
    match withBody compress crc32 data width height output writeOk with
    | (some evs, some u) => (Except.ok u, FSEvent.openFile output :: evs)
    | (some evs, none) =>
        (Except.error (PngError.screenshot (errMsg output)),
         FSEvent.openFile output :: evs)
    | (none, _) => (Except.error PngError.ioFailure, [FSEvent.openFile output])
  else
    (Except.error PngError.ioFailure, [])

/-- The dict a backend returns for one monitor.  The module requires width
and height to be positive sizes; left and top are signed coordinates. -/
structure Monitor where
  left : ℤ
  top : ℤ
  width : ℕ
  height : ℕ
deriving DecidableEq

/-- The observable actions of one run of save, in order. -/
inductive SaveEvent
  | callbackCall (path : String) (result : Bool)
  | pixelRequest (idx : ℕ) (m : Monitor)
  | fileWrite (path : String) (bytes : List ℕ)
  | yielded (path : String)
deriving DecidableEq

/-- The first character of the placeholder token, percent (code 37). -/
def pctHead : Char := Char.ofNat 37

/-- The second character of the placeholder token, d (code 100). -/
def pctTail : Char := Char.ofNat 100

/-- The membership test: the two-character placeholder occurs in the text. -/
def containsPct : List Char → Bool
  | [] => false
  | [_] => false
  | c1 :: c2 :: rest => (c1 = pctHead && c2 = pctTail) || containsPct (c2 :: rest)

/-- Replace every non-overlapping occurrence of the placeholder, scanning
left to right, exactly as str.replace does for a two-character pattern. -/
def replacePct (rep : List Char) : List Char → List Char
  | [] => []
  | [c] => [c]
  | c1 :: c2 :: rest =>
    if c1 = pctHead ∧ c2 = pctTail then rep ++ replacePct rep rest
    else c1 :: replacePct rep (c2 :: rest)

/-- fname = output, with the placeholder replaced by str (i + 1) when the
output pattern contains it. -/
def fname (output : String) (i : ℕ) : String :=
  if containsPct output.data then
    String.mk (replacePct (toString (i + 1)).data output.data)
  else output

/-- The body of one accepted loop iteration of save: compute fname, call the
callback (its result is recorded but not inspected by the code), request the
pixels, write the PNG file, and yield the file name. -/
def saveStep (getPixels : Monitor → List ℕ) (compress : List ℕ → List ℕ)
    (crc32 : List ℕ → ℕ) (output : String) (callback : String → Bool)
    (i : ℕ) (m : Monitor) : List SaveEvent :=
  [SaveEvent.callbackCall (fname output i) (callback (fname output i)),
   SaveEvent.pixelRequest i m,
   SaveEvent.fileWrite (fname output i)
     (to_png_bytes compress crc32 (getPixels m) m.width m.height),
   SaveEvent.yielded (fname output i)]

/-- The for loop of save over enumerate of the monitor list, carried out from
loop counter i: the guard screen <= 0 or (screen > 0 and i + 1 == screen)
selects the iterations that run their body. -/
def saveLoop (getPixels : Monitor → List ℕ) (compress : List ℕ → List ℕ)
    (crc32 : List ℕ → ℕ) (screen : ℤ) (output : String)
    (callback : String → Bool) : ℕ → List Monitor → List SaveEvent
  | _, [] => []
  | i, m :: ms =>
    (if screen ≤ 0 ∨ (screen > 0 ∧ (i : ℤ) + 1 = screen) then
      saveStep getPixels compress crc32 output callback i m
    else
      []) ++ saveLoop getPixels compress crc32 screen output callback (i + 1) ms

/-- The full event trace of save on the enumerated monitor list (the trace a
consumer that drains the generator observes, with all I/O succeeding). -/
def saveTrace (monitors : List Monitor) (getPixels : Monitor → List ℕ)
    (compress : List ℕ → List ℕ) (crc32 : List ℕ → ℕ) (screen : ℤ)
    (output : String) (callback : String → Bool) : List SaveEvent :=
  saveLoop getPixels compress crc32 screen output callback 0 monitors

/-- The 0-based loop indices whose monitor had its pixels requested. -/
def processedIdxs (t : List SaveEvent) : List ℕ :=
  t.filterMap fun e =>
    match e with
    | SaveEvent.pixelRequest i _ => some i
    | _ => none

/-- Test for a file-write event. -/
def isFileWrite : SaveEvent → Bool
  | SaveEvent.fileWrite _ _ => true
  | _ => false

/-- Number of files written in a trace. -/
def fileWriteCount (t : List SaveEvent) : ℕ := t.countP isFileWrite

/-! Concrete inputs used by closed theorems. -/

/-- A plain output path without the placeholder. -/
def demoPath : String := "shot.png"

/-- A 1 by 1 monitor. -/
def demoMonitor : Monitor := ⟨0, 0, 1, 1⟩

/-- A trivial stand-in for the zlib crc32 parameter. -/
def czero : List ℕ → ℕ := fun _ => 0

/-- Two monitors, for the selection scenarios. -/
def demoMonitors : List Monitor := [⟨0, 0, 8, 1⟩, ⟨10, 0, 4, 2⟩]

/-! Helper lemmas. -/

/-- The padding never exceeds the working row length. -/
lemma padding_le (w : ℕ) : padding w ≤ line w := by
  unfold padding line
  split <;> omega

/-- The Python slice in normal form: drop the start, take the slice length. -/
lemma rowSlice_eq (data : List ℕ) (w y : ℕ) :
    rowSlice data w y = (data.drop (y * line w)).take (line w - padding w) := by
  unfold rowSlice
  rw [List.drop_take]
  congr 1
  have := padding_le w
  omega

/-- Big-endian 4-byte round trip. -/
lemma de32_be32 (n : ℕ) : de32 (be32 n) = n % 4294967296 := by
  simp only [de32, be32]
  omega

/-- Writing rows of length L out of a buffer of length h * L reassembles the
buffer exactly. -/
lemma join_rows (L : ℕ) : ∀ (h : ℕ) (data : List ℕ), data.length = h * L →
    (List.range h).flatMap (fun y => (data.drop (y * L)).take L) = data := by
  intro h
  induction h with
  | zero =>
    intro data hd
    simp only [Nat.zero_mul] at hd
    simp [List.eq_nil_of_length_eq_zero hd]
  | succ n ih =>
    intro data hd
    rw [List.range_succ_eq_map, List.flatMap_cons, List.flatMap_map]
    have hfun : ∀ y : ℕ,
        (data.drop (Nat.succ y * L)).take L
          = ((data.drop L).drop (y * L)).take L := by
      intro y
      rw [List.drop_drop, Nat.succ_mul, Nat.add_comm (n := L)]
    have hbody :
        ((List.range n).flatMap fun y => (data.drop (Nat.succ y * L)).take L)
          = (List.range n).flatMap fun y => ((data.drop L).drop (y * L)).take L := by
      exact List.flatMap_congr fun y _ => hfun y
    simp only [Function.comp] at *
    rw [hbody, ih (data.drop L) (by simp [hd, Nat.succ_mul])]
    simp [List.take_append_drop]

/-- With an always-successful write oracle, the sequence of writes succeeds
and records one write event per block, in order. -/
lemma writeSeq_ok (path : String) (writeOk : ℕ → Bool)
    (hw : ∀ k, writeOk k = true) :
    ∀ (bs : List (List ℕ)) (k : ℕ),
      writeSeq path writeOk k bs = some (bs.map fun b => FSEvent.writeBytes path b) := by
  intro bs
  induction bs with
  | nil => intro k; rfl
  | cons b rest ih =>
    intro k
    unfold writeSeq
    rw [hw k, if_pos rfl, ih (k + 1)]
    rfl

/-- The with block either raises from a write or executes its return; it
never falls off the end of the block. -/
lemma withBody_cases (compress : List ℕ → List ℕ) (crc32 : List ℕ → ℕ)
    (data : List ℕ) (width height : ℕ) (output : String) (writeOk : ℕ → Bool) :
    withBody compress crc32 data width height output writeOk = (none, none)
    ∨ ∃ evs, withBody compress crc32 data width height output writeOk
        = (some evs, some ()) := by
  unfold withBody
  rcases hq : writeSeq output writeOk 0 (pngPieces compress crc32 data width height) with _ | evs
  · exact Or.inl rfl
  · exact Or.inr ⟨evs, rfl⟩

/-! The claims. -/

/-- Claim C4: for every non-negative width, the working stride line equals
round_up (width * 3, 4) — characterised as the unique multiple of 4 that is
at least width * 3 and less than width * 3 + 4 — the padding is 0 when the
stride is a multiple of 8 and (stride mod 8) div 2 otherwise, and the
scanline block is the concatenation over the rows of one filter byte 0
followed by the slice data[y * stride : y * stride + stride - padding]. -/
theorem c4_stride_padding_scanlines (w : ℕ) :
    (4 ∣ line w ∧ w * 3 ≤ line w ∧ line w < w * 3 + 4)
    ∧ padding w = (if line w % 8 = 0 then 0 else line w % 8 / 2)
    ∧ ∀ (data : List ℕ) (h : ℕ),
        scanlines data w h =
          (List.range h).flatMap
            fun y => 0 :: (data.drop (y * line w)).take (line w - padding w) := by
  refine ⟨⟨?_, ?_, ?_⟩, rfl, ?_⟩
  · unfold line; omega
  · unfold line; omega
  · unfold line; omega
  · intro data h
    unfold scanlines
    exact List.flatMap_congr fun y _ => by rw [rowSlice_eq]

/-- Claim C6: for every pixel buffer (and any compressor and checksum
functions), the first 8 bytes of the encoded output are exactly the fixed
magic sequence 137, 80, 78, 71, 13, 10, 26, 10. -/
theorem c6_signature (compress : List ℕ → List ℕ) (crc32 : List ℕ → ℕ)
    (data : List ℕ) (w h : ℕ) :
    (to_png_bytes compress crc32 data w h).take 8
      = [137, 80, 78, 71, 13, 10, 26, 10] := by
  unfold to_png_bytes
  rw [List.append_assoc, List.append_assoc]
  exact List.take_left' rfl

/-- Claim C9: the final raise of ScreenshotError in to_png is dead code: on
every input and every outcome of open and of the four writes, to_png either
returns normally or propagates the I/O failure, and never produces the
ScreenshotError of its final statement. -/
theorem c9_no_screenshot_error (compress : List ℕ → List ℕ)
    (crc32 : List ℕ → ℕ) (data : List ℕ) (w h : ℕ) (output : String)
    (openOk : Bool) (writeOk : ℕ → Bool) (msg : String) :
    (to_png_exec compress crc32 data w h output openOk writeOk).fst
      ≠ Except.error (PngError.screenshot msg) := by
  unfold to_png_exec
  cases openOk with
  | false => simp
  | true =>
    rcases withBody_cases compress crc32 data w h output writeOk with hb | ⟨evs, hb⟩ <;>
      rw [hb] <;> simp

/-- Claim C2 counterexample: the buffer [] has length 0, not 1 * 1 * 3, yet
to_png completes normally (there is no EncodingError anywhere in the code)
and writes output. -/
theorem c2_counterexample :
    ([] : List ℕ).length ≠ 1 * 1 * 3
    ∧ (to_png_exec id czero [] 1 1 demoPath true (fun _ => true)).fst
        = Except.ok ()
    ∧ (to_png_exec id czero [] 1 1 demoPath true (fun _ => true)).snd ≠ [] :=
  ⟨by decide, rfl, by decide⟩

/-- Claim C2 (amended): to_png performs no validation of the buffer length:
for every buffer, well-formed or malformed, it never raises an encoding
error — when open and the writes succeed it completes normally. -/
theorem c2_no_length_validation (compress : List ℕ → List ℕ)
    (crc32 : List ℕ → ℕ) (data : List ℕ) (w h : ℕ) (output : String)
    (writeOk : ℕ → Bool) (hw : ∀ k, writeOk k = true) :
    (to_png_exec compress crc32 data w h output true writeOk).fst
      = Except.ok () := by
  unfold to_png_exec withBody
  rw [writeSeq_ok output writeOk hw _ 0]
  rfl

/-- Witness for C2: the amended claim evaluated on the malformed buffer. -/
theorem c2_no_length_validation_w :
    (to_png_exec id czero [] 1 1 demoPath true (fun _ => true)).fst
      = Except.ok () :=
  c2_no_length_validation id czero [] 1 1 demoPath (fun _ => true) fun _ => rfl

/-- Claim C3 counterexample: to_png does touch the disk — on a concrete
input it opens the output file and performs writes, so its file-system
event trace is not empty. -/
theorem c3_counterexample :
    (to_png_exec id czero [] 0 0 demoPath true (fun _ => true)).snd ≠ [] := by
  decide

/-- Claim C3 (amended): the encoding computation is pure, but the file write
happens inside to_png itself, not in a separate orchestrator step: with
successful I/O, the effect trace of to_png is exactly one open of the output
path followed by one write per encoded block, and the concatenation of the
written blocks is exactly the pure encoding to_png_bytes. -/
theorem c3_write_inside_to_png (compress : List ℕ → List ℕ)
    (crc32 : List ℕ → ℕ) (data : List ℕ) (w h : ℕ) (output : String)
    (writeOk : ℕ → Bool) (hw : ∀ k, writeOk k = true) :
    (to_png_exec compress crc32 data w h output true writeOk).snd
      = FSEvent.openFile output
          :: (pngPieces compress crc32 data w h).map
            (fun b => FSEvent.writeBytes output b)
    ∧ (pngPieces compress crc32 data w h).flatten
      = to_png_bytes compress crc32 data w h := by
  constructor
  · unfold to_png_exec withBody
    rw [writeSeq_ok output writeOk hw _ 0]
    rfl
  · simp [pngPieces, to_png_bytes, List.append_assoc]

/-- Witness for C3: the amended claim evaluated on a concrete input. -/
theorem c3_write_inside_to_png_w :
    (to_png_exec id czero [] 0 0 demoPath true (fun _ => true)).snd
      = FSEvent.openFile demoPath
          :: (pngPieces id czero [] 0 0).map
            (fun b => FSEvent.writeBytes demoPath b)
    ∧ (pngPieces id czero [] 0 0).flatten = to_png_bytes id czero [] 0 0 :=
  c3_write_inside_to_png id czero [] 0 0 demoPath (fun _ => true) fun _ => rfl

/-- The output stream split after the fixed 16-byte prefix that precedes the
width field of the header chunk. -/
lemma to_png_bytes_decomp (compress : List ℕ → List ℕ) (crc32 : List ℕ → ℕ)
    (data : List ℕ) (w h : ℕ) :
    to_png_bytes compress crc32 data w h
      = (pngMagic ++ be32 13 ++ ihdrTag)
        ++ (be32 w
          ++ (be32 h
            ++ ([8, 2, 0, 0, 0]
              ++ (be32 (crc32 (ihdrTag ++ ihdrPayload w h) % 4294967296)
                ++ (chunkBytes crc32 idatTag (compress (scanlines data w h))
                  ++ chunkBytes crc32 iendTag []))))) := by
  simp [to_png_bytes, chunkBytes, ihdrPayload, be32, List.append_assoc]

/-- Claim C8: the header chunk payload is the big-endian width, big-endian
height, then bit depth 8, colour type 2, compression 0, filter 0, interlace
0; decoding the width and height fields of the output at their fixed offsets
yields the width and height back exactly. -/
theorem c8_header_roundtrip (compress : List ℕ → List ℕ)
    (crc32 : List ℕ → ℕ) (data : List ℕ) (w h : ℕ)
    (hw : w < 4294967296) (hh : h < 4294967296) :
    ihdrPayload w h = be32 w ++ be32 h ++ [8, 2, 0, 0, 0]
    ∧ de32 (((to_png_bytes compress crc32 data w h).drop 16).take 4) = w
    ∧ de32 (((to_png_bytes compress crc32 data w h).drop 20).take 4) = h := by
  have h16 : (pngMagic ++ be32 13 ++ ihdrTag).length = 16 := by
    simp [pngMagic, be32, ihdrTag]
  have h20 : ((pngMagic ++ be32 13 ++ ihdrTag) ++ be32 w).length = 20 := by
    simp [pngMagic, be32, ihdrTag]
  refine ⟨rfl, ?_, ?_⟩
  · rw [to_png_bytes_decomp, List.drop_left' h16,
      List.take_left' (show (be32 w).length = 4 from rfl), de32_be32]
    exact Nat.mod_eq_of_lt hw
  · rw [to_png_bytes_decomp, ← List.append_assoc, List.drop_left' h20,
      List.take_left' (show (be32 h).length = 4 from rfl), de32_be32]
    exact Nat.mod_eq_of_lt hh

/-- Claim C7: every chunk of the output is the 4-byte big-endian payload
length, the 4-byte marker, the payload, then the 4-byte big-endian crc32 of
marker plus payload; the stored checksum field decodes to exactly the crc32
recomputed over marker plus payload, and the length field decodes to the
payload length. -/
theorem c7_chunk_format (compress : List ℕ → List ℕ) (crc32 : List ℕ → ℕ)
    (data : List ℕ) (w h : ℕ) (tag payload : List ℕ)
    (htag : tag.length = 4) (hlen : payload.length < 4294967296) :
    (to_png_bytes compress crc32 data w h).drop 8
      = chunkBytes crc32 ihdrTag (ihdrPayload w h)
        ++ chunkBytes crc32 idatTag (compress (scanlines data w h))
        ++ chunkBytes crc32 iendTag []
    ∧ chunkBytes crc32 tag payload
      = be32 payload.length ++ tag ++ payload
        ++ be32 (crc32 (tag ++ payload) % 4294967296)
    ∧ de32 ((chunkBytes crc32 tag payload).take 4) = payload.length
    ∧ de32 (((chunkBytes crc32 tag payload).drop (8 + payload.length)).take 4)
      = crc32 (tag ++ payload) % 4294967296 := by
  refine ⟨?_, rfl, ?_, ?_⟩
  · unfold to_png_bytes
    rw [List.append_assoc, List.append_assoc]
    exact List.drop_left' rfl
  · unfold chunkBytes
    rw [List.append_assoc, List.append_assoc,
      List.take_left' (show (be32 payload.length).length = 4 from rfl), de32_be32]
    exact Nat.mod_eq_of_lt hlen
  · unfold chunkBytes
    have hpre : ((be32 payload.length ++ tag) ++ payload).length
        = 8 + payload.length := by
      simp [be32, htag]
      omega
    rw [List.drop_left' hpre,
      show (be32 (crc32 (tag ++ payload) % 4294967296)).take 4
          = be32 (crc32 (tag ++ payload) % 4294967296) from rfl,
      de32_be32]
    omega

/-- Witness for C7: the checksum field of a concrete chunk decodes to the
recomputed checksum. -/
theorem c7_chunk_format_w :
    de32 ((chunkBytes czero iendTag ([] : List ℕ)).take 4)
      = ([] : List ℕ).length :=
  (c7_chunk_format id czero [] 0 0 iendTag [] (by decide) (by decide)).2.2.1

/-- Witness for C8: the width field of a concrete output decodes back. -/
theorem c8_header_roundtrip_w :
    de32 (((to_png_bytes id czero [] 2 2).drop 16).take 4) = 2 :=
  (c8_header_roundtrip id czero [] 2 2 (by decide) (by decide)).2.1

/-- Claim C10: when the width is a multiple of 8 and the buffer length is
width * height * 3, the stride equals width * 3 and the padding is 0, each
row slice is exactly the corresponding true pixel row, and the row slices
reassemble the buffer exactly; moreover for every width the padding is
either 0 or 2, the stride being a multiple of 4. -/
theorem c10_aligned_width (w h : ℕ) (data : List ℕ) (hw8 : w % 8 = 0)
    (hlen : data.length = w * h * 3) :
    line w = w * 3 ∧ padding w = 0
    ∧ (∀ y, rowSlice data w y = (data.drop (y * (w * 3))).take (w * 3))
    ∧ ((List.range h).flatMap fun y => rowSlice data w y) = data
    ∧ ∀ w2 : ℕ, padding w2 = 0 ∨ padding w2 = 2 := by
  have hline : line w = w * 3 := by unfold line; omega
  have hpad : padding w = 0 := by
    unfold padding
    rw [hline]
    have h8 : w * 3 % 8 = 0 := by omega
    simp [h8]
  have hrow : ∀ y, rowSlice data w y = (data.drop (y * (w * 3))).take (w * 3) := by
    intro y
    rw [rowSlice_eq, hline, hpad]
    simp
  refine ⟨hline, hpad, hrow, ?_, ?_⟩
  · calc ((List.range h).flatMap fun y => rowSlice data w y)
        = (List.range h).flatMap fun y => (data.drop (y * (w * 3))).take (w * 3) :=
          List.flatMap_congr fun y _ => hrow y
      _ = data := join_rows (w * 3) h data (by rw [hlen]; ring)
  · intro w2
    unfold padding
    split
    · exact Or.inl rfl
    · refine Or.inr ?_
      rename_i hne
      unfold line at hne ⊢
      omega

/-- Witness for C10: the aligned-width facts at width 8, height 1. -/
theorem c10_aligned_width_w : line 8 = 8 * 3 ∧ padding 8 = 0 := by
  have h := c10_aligned_width 8 1 (List.replicate 24 0) (by decide) (by decide)
  exact ⟨h.1, h.2.1⟩

/-- One accepted iteration contributes exactly its own loop index. -/
lemma processedIdxs_step (getPixels : Monitor → List ℕ)
    (compress : List ℕ → List ℕ) (crc32 : List ℕ → ℕ) (screen : ℤ)
    (output : String) (callback : String → Bool) (i : ℕ) (m : Monitor) :
    processedIdxs
        (if screen ≤ 0 ∨ (screen > 0 ∧ (i : ℤ) + 1 = screen) then
          saveStep getPixels compress crc32 output callback i m
        else [])
      = if screen ≤ 0 ∨ (screen > 0 ∧ (i : ℤ) + 1 = screen) then [i] else [] := by
  split <;> simp [saveStep, processedIdxs]

/-- A loop index is processed exactly when it lies in the enumeration range
and satisfies the selection guard. -/
lemma mem_processedIdxs_saveLoop (getPixels : Monitor → List ℕ)
    (compress : List ℕ → List ℕ) (crc32 : List ℕ → ℕ) (screen : ℤ)
    (output : String) (callback : String → Bool) :
    ∀ (ms : List Monitor) (i0 j : ℕ),
      j ∈ processedIdxs (saveLoop getPixels compress crc32 screen output callback i0 ms)
        ↔ i0 ≤ j ∧ j < i0 + ms.length
            ∧ (screen ≤ 0 ∨ (screen > 0 ∧ (j : ℤ) + 1 = screen)) := by
  intro ms
  induction ms with
  | nil =>
    intro i0 j
    simp [saveLoop, processedIdxs]
    omega
  | cons m rest ih =>
    intro i0 j
    rw [saveLoop]
    unfold processedIdxs
    rw [List.filterMap_append]
    rw [List.mem_append]
    have hstep := processedIdxs_step getPixels compress crc32 screen output callback i0 m
    unfold processedIdxs at hstep
    rw [hstep]
    have hrest := ih (i0 + 1) j
    unfold processedIdxs at hrest
    rw [hrest]
    by_cases hc : screen ≤ 0 ∨ (screen > 0 ∧ (i0 : ℤ) + 1 = screen)
    · rw [if_pos hc]
      simp only [List.mem_singleton, List.length_cons]
      constructor
      · rintro (rfl | ⟨h1, h2, h3⟩)
        · exact ⟨le_refl _, by omega, hc⟩
        · exact ⟨by omega, by omega, h3⟩
      · rintro ⟨h1, h2, h3⟩
        by_cases hj : j = i0
        · exact Or.inl hj
        · exact Or.inr ⟨by omega, by omega, h3⟩
    · rw [if_neg hc]
      simp only [List.not_mem_nil, false_or, List.length_cons]
      constructor
      · rintro ⟨h1, h2, h3⟩
        exact ⟨by omega, by omega, h3⟩
      · rintro ⟨h1, h2, h3⟩
        refine ⟨?_, by omega, h3⟩
        rcases Nat.eq_or_lt_of_le h1 with rfl | hlt
        · exact absurd h3 hc
        · omega

/-- With a positive scope N, the processed indices of the loop started at
counter i0 are exactly the singleton N - 1 when that index lies in range,
and nothing otherwise. -/
lemma processedIdxs_saveLoop_pos (getPixels : Monitor → List ℕ)
    (compress : List ℕ → List ℕ) (crc32 : List ℕ → ℕ)
    (output : String) (callback : String → Bool) (N : ℕ) (hN : 0 < N) :
    ∀ (ms : List Monitor) (i0 : ℕ),
      processedIdxs (saveLoop getPixels compress crc32 (N : ℤ) output callback i0 ms)
        = if i0 ≤ N - 1 ∧ N - 1 < i0 + ms.length then [N - 1] else [] := by
  intro ms
  induction ms with
  | nil =>
    intro i0
    rw [if_neg (by simp only [List.length_nil]; omega)]
    rfl
  | cons m rest ih =>
    intro i0
    rw [saveLoop]
    unfold processedIdxs
    rw [List.filterMap_append]
    have hstep := processedIdxs_step getPixels compress crc32 (N : ℤ) output callback i0 m
    unfold processedIdxs at hstep
    rw [hstep]
    have hrest := ih (i0 + 1)
    unfold processedIdxs at hrest
    rw [hrest]
    simp only [List.length_cons]
    by_cases hi : i0 = N - 1
    · subst hi
      rw [if_pos (Or.inr ⟨by omega, by omega⟩)]
      rw [if_neg (by omega), if_pos (by omega)]
      rfl
    · rw [if_neg (by omega)]
      rw [List.nil_append]
      by_cases h2 : i0 + 1 ≤ N - 1 ∧ N - 1 < i0 + 1 + rest.length
      · rw [if_pos h2, if_pos (by omega)]
      · rw [if_neg h2, if_neg (by omega)]

/-- Each processed monitor produces exactly one file write: the number of
file writes in a loop trace equals the number of processed indices. -/
lemma fileWriteCount_saveLoop (getPixels : Monitor → List ℕ)
    (compress : List ℕ → List ℕ) (crc32 : List ℕ → ℕ) (screen : ℤ)
    (output : String) (callback : String → Bool) :
    ∀ (ms : List Monitor) (i0 : ℕ),
      fileWriteCount (saveLoop getPixels compress crc32 screen output callback i0 ms)
        = (processedIdxs (saveLoop getPixels compress crc32 screen output callback i0 ms)).length := by
  intro ms
  induction ms with
  | nil => intro i0; rfl
  | cons m rest ih =>
    intro i0
    rw [saveLoop]
    unfold fileWriteCount processedIdxs
    rw [List.countP_append, List.filterMap_append, List.length_append]
    have hr := ih (i0 + 1)
    unfold fileWriteCount processedIdxs at hr
    rw [hr]
    congr 1
    split <;> simp [saveStep, List.countP_cons, isFileWrite]

/-- Claim C5: a monitor at 0-based index i is processed iff the scope is at
most 0, or the scope is positive and i + 1 equals it; with a positive scope
N at most the monitor count, exactly one monitor — the Nth, 1-based — is
processed and exactly one file is written. -/
theorem c5_selection (monitors : List Monitor) (getPixels : Monitor → List ℕ)
    (compress : List ℕ → List ℕ) (crc32 : List ℕ → ℕ) (screen : ℤ)
    (output : String) (callback : String → Bool) (i : ℕ) :
    (i ∈ processedIdxs (saveTrace monitors getPixels compress crc32 screen output callback)
      ↔ i < monitors.length ∧ (screen ≤ 0 ∨ (screen > 0 ∧ (i : ℤ) + 1 = screen)))
    ∧ ∀ N : ℕ, 0 < N → N ≤ monitors.length →
        processedIdxs
            (saveTrace monitors getPixels compress crc32 (N : ℤ) output callback)
          = [N - 1]
        ∧ fileWriteCount
            (saveTrace monitors getPixels compress crc32 (N : ℤ) output callback)
          = 1 := by
  constructor
  · unfold saveTrace
    rw [mem_processedIdxs_saveLoop]
    constructor
    · rintro ⟨h1, h2, h3⟩
      exact ⟨by omega, h3⟩
    · rintro ⟨h2, h3⟩
      exact ⟨by omega, by omega, h3⟩
  · intro N hN hle
    unfold saveTrace
    rw [processedIdxs_saveLoop_pos getPixels compress crc32 output callback N hN monitors 0,
      if_pos (by omega)]
    refine ⟨rfl, ?_⟩
    rw [fileWriteCount_saveLoop,
      processedIdxs_saveLoop_pos getPixels compress crc32 output callback N hN monitors 0,
      if_pos (by omega)]
    rfl

/-- Witness for C5: with two monitors and scope 2, exactly the second
monitor (index 1) is processed and exactly one file is written. -/
theorem c5_selection_w :
    processedIdxs
        (saveTrace demoMonitors (fun _ => []) id czero ((2 : ℕ) : ℤ) demoPath
          (fun _ => true))
      = [1]
    ∧ fileWriteCount
        (saveTrace demoMonitors (fun _ => []) id czero ((2 : ℕ) : ℤ) demoPath
          (fun _ => true))
      = 1 :=
  (c5_selection demoMonitors (fun _ => []) id czero 0 demoPath (fun _ => true) 0).2
    2 (by decide) (by decide)

/-- Claim C1, evaluated at the failing input: with one monitor and an
overwrite callback that returns false, save still requests the pixels,
writes the file and yields the path immediately after invoking the callback:
the callback result is recorded but never inspected, so the monitor is not
skipped. -/
theorem c1_callback_result_ignored :
    saveTrace [demoMonitor] (fun _ => [0, 0, 0]) id czero 0 demoPath
        (fun _ => false)
      = [SaveEvent.callbackCall demoPath false,
         SaveEvent.pixelRequest 0 demoMonitor,
         SaveEvent.fileWrite demoPath (to_png_bytes id czero [0, 0, 0] 1 1),
         SaveEvent.yielded demoPath] := by
  rfl

end MSS
